import Mathlib

/-!
Shallow embedding of the weekly_prep tool-adapter layer
(src/weekly/tools/{calendar_tool, gmail_tool, hubspot_tool, doc_tool}.py).

External backends (Google Calendar / Gmail / Docs / Drive, HubSpot) are
modelled as records of outcome functions: each backend call is a field
returning `Except e a`, where `Except.error` stands for the Python call
raising an exception.  Python `datetime` parsing is modelled by a concrete
parser for the pre-3.11 `fromisoformat` grammar that the code's own
fallback comment assumes (`YYYY-MM-DD[<sep>HH[:MM[:SS]][±HH:MM]]`;
fractional seconds are not modelled).  Timestamps are modelled as civil
fields plus an instant in seconds since the Unix epoch; the fixed local
zone is IST (UTC+05:30 = 330 minutes).
-/

namespace Weekly

/-! ## Calendar arithmetic (model of Python `datetime` date handling) -/

def isLeap (y : Int) : Bool :=
  y % 4 == 0 && (y % 100 != 0 || y % 400 == 0)

def daysInMonth (y : Int) (m : Nat) : Nat :=
  if m = 1 then 31 else if m = 2 then (if isLeap y then 29 else 28)
  else if m = 3 then 31 else if m = 4 then 30 else if m = 5 then 31
  else if m = 6 then 30 else if m = 7 then 31 else if m = 8 then 31
  else if m = 9 then 30 else if m = 10 then 31 else if m = 11 then 30
  else if m = 12 then 31 else 0

/-- Days since 1970-01-01 of a civil date (proleptic Gregorian). -/
def daysFromCivil (y : Int) (m d : Nat) : Int :=
  let y2 : Int := if m ≤ 2 then y - 1 else y
  let era : Int := Int.fdiv y2 400
  let yoe : Int := y2 - era * 400
  let mp : Int := (Int.ofNat m + 9) % 12
  let doy : Int := Int.fdiv (153 * mp + 2) 5 + Int.ofNat d - 1
  let doe : Int := yoe * 365 + Int.fdiv yoe 4 - Int.fdiv yoe 100 + doy
  era * 146097 + doe - 719468

/-- Civil date from days since 1970-01-01 (inverse of `daysFromCivil`). -/
def civilFromDays (z0 : Int) : Int × Nat × Nat :=
  let z := z0 + 719468
  let era := Int.fdiv z 146097
  let doe := z - era * 146097
  let yoe := Int.fdiv (doe - Int.fdiv doe 1460 + Int.fdiv doe 36524 - Int.fdiv doe 146096) 365
  let y := yoe + era * 400
  let doy := doe - (365 * yoe + Int.fdiv yoe 4 - Int.fdiv yoe 100)
  let mp := Int.fdiv (5 * doy + 2) 153
  let d := doy - Int.fdiv (153 * mp + 2) 5 + 1
  let m := if mp < 10 then mp + 3 else mp - 9
  (if m ≤ 2 then y + 1 else y, m.toNat, d.toNat)

def weekdayNames : List String :=
  ["Monday", "Tuesday", "Wednesday", "Thursday", "Friday", "Saturday", "Sunday"]

/-- Model of `strftime("%A")`: 1970-01-01 was a Thursday, so index 3. -/
def weekdayName (y : Int) (m d : Nat) : String :=
  weekdayNames.getD ((Int.emod (daysFromCivil y m d + 3) 7).toNat) ""

/-! ## Model of `datetime.fromisoformat` (pre-3.11 grammar, no fractional seconds) -/

/-- A parsed Python datetime: civil fields plus an optional UTC offset in
minutes (`none` = naive). -/
structure PyDT where
  year : Int
  month : Nat
  day : Nat
  hour : Nat
  minute : Nat
  second : Nat
  off : Option Int
deriving DecidableEq, Repr

def digitVal (c : Char) : Option Nat :=
  if c.isDigit then some (c.toNat - 48) else none

def parseNatDigits (cs : List Char) : Option Nat :=
  cs.foldl (fun acc c => acc.bind fun n => (digitVal c).map fun v => n * 10 + v) (some 0)

/-- `YYYY-MM-DD` with range validation (Python years run 1..9999). -/
def parseDate (cs : List Char) : Option (Int × Nat × Nat) :=
  match cs with
  | [y1, y2, y3, y4, '-', m1, m2, '-', d1, d2] =>
    match parseNatDigits [y1, y2, y3, y4], parseNatDigits [m1, m2], parseNatDigits [d1, d2] with
    | some y, some m, some d =>
      if 1 ≤ y ∧ 1 ≤ m ∧ m ≤ 12 ∧ 1 ≤ d ∧ d ≤ daysInMonth (Int.ofNat y) m then
        some (Int.ofNat y, m, d)
      else none
    | _, _, _ => none
  | _ => none

/-- `HH[:MM[:SS]]`, returning the unconsumed suffix (a possible offset). -/
def parseTimeCore (cs : List Char) : Option (Nat × Nat × Nat × List Char) :=
  match cs with
  | h1 :: h2 :: rest =>
    match parseNatDigits [h1, h2] with
    | some h =>
      if h ≤ 23 then
        match rest with
        | ':' :: m1 :: m2 :: rest2 =>
          match parseNatDigits [m1, m2] with
          | some mi =>
            if mi ≤ 59 then
              match rest2 with
              | ':' :: s1 :: s2 :: rest3 =>
                match parseNatDigits [s1, s2] with
                | some ss => if ss ≤ 59 then some (h, mi, ss, rest3) else none
                | none => none
              | _ => some (h, mi, 0, rest2)
            else none
          | none => none
        | _ => some (h, 0, 0, rest)
      else none
    | none => none
  | _ => none

/-- `±HH:MM` offset, in minutes. -/
def parseOffset (cs : List Char) : Option Int :=
  match cs with
  | [sgn, h1, h2, ':', m1, m2] =>
    match parseNatDigits [h1, h2], parseNatDigits [m1, m2] with
    | some h, some mi =>
      if h ≤ 23 ∧ mi ≤ 59 then
        if sgn = '+' then some (Int.ofNat (h * 60 + mi))
        else if sgn = '-' then some (-(Int.ofNat (h * 60 + mi)))
        else none
      else none
    | _, _ => none
  | _ => none

def parseTimeOff (cs : List Char) : Option (Nat × Nat × Nat × Option Int) :=
  match parseTimeCore cs with
  | none => none
  | some (h, mi, ss, rest) =>
    match rest with
    | [] => some (h, mi, ss, none)
    | _ =>
      match parseOffset rest with
      | some o => some (h, mi, ss, some o)
      | none => none

/-- Model of `datetime.fromisoformat` pre 3.11: a 10-char date, or a date
followed by one separator character (any character) and a time with an
optional `±HH:MM` offset.  A trailing `Z` is not accepted (that is what
the calendar tool's fallback rewrite is for). -/
def pyFromIso (s : String) : Option PyDT :=
  let cs := s.data
  if cs.length = 10 then
    (parseDate cs).map fun (y, m, d) => ⟨y, m, d, 0, 0, 0, none⟩
  else if 10 < cs.length then
    match parseDate (cs.take 10) with
    | none => none
    | some (y, m, d) =>
      match parseTimeOff (cs.drop 11) with
      | none => none
      | some (h, mi, ss, o) => some ⟨y, m, d, h, mi, ss, o⟩
  else none

/-- IST = UTC+05:30, the fixed local zone of the repository. -/
def istOffsetMinutes : Int := 330

/-- Instant (seconds since epoch) of a parsed datetime; a naive value is
interpreted at `defaultOff` minutes east of UTC. -/
def dtInstant (dt : PyDT) (defaultOff : Int) : Int :=
  daysFromCivil dt.year dt.month dt.day * 86400
    + Int.ofNat (dt.hour * 3600 + dt.minute * 60 + dt.second)
    - 60 * (dt.off.getD defaultOff)

/-! ## calendar_tool.py -/

def invalidIsoMsg (s : String) : String := "Invalid isoformat string: " ++ s

/-- Model of `FetchUpcomingMeetingsTool._parse_iso_local`: parse ISO-8601;
naive values are stamped as IST, aware values are converted to IST.  Either
way the denoted instant is the result; a parse failure is the raised
`ValueError`. -/
def parseIsoLocal (s : String) : Except String Int :=
  match pyFromIso s with
  | none => Except.error (invalidIsoMsg s)
  | some dt => Except.ok (dtInstant dt istOffsetMinutes)

/-- The time window `(time_min, time_max)` the tool derives (as instants)
from the optional `start_iso` / `end_iso` arguments, `now` being
`datetime.now(IST)`.  Defaults: start = now, end = start + 7 days. -/
def deriveWindow (now : Int) (startIso endIso : Option String) : Except String (Int × Int) := do
  let s ← match startIso with
    | some v => parseIsoLocal v
    | none => pure now
  let e ← match endIso with
    | some v => parseIsoLocal v
    | none => pure (s + 604800)
  return (s, e)

/-- A civil datetime in the fixed IST zone. -/
structure IstDT where
  year : Int
  month : Nat
  day : Nat
  hour : Nat
  minute : Nat
  second : Nat
deriving DecidableEq, Repr

/-- IST civil datetime of an instant (model of `astimezone(IST)`). -/
def istFromInstant (i : Int) : IstDT :=
  let t := i + istOffsetMinutes * 60
  let days := Int.fdiv t 86400
  let secs := (Int.fmod t 86400).toNat
  let c := civilFromDays days
  ⟨c.1, c.2.1, c.2.2, secs / 3600, secs % 3600 / 60, secs % 60⟩

def pad2 (n : Nat) : String := if n < 10 then "0" ++ toString n else toString n

def pad4 (y : Int) : String :=
  let n := y.toNat
  if n < 10 then "000" ++ toString n
  else if n < 100 then "00" ++ toString n
  else if n < 1000 then "0" ++ toString n
  else toString n

/-- Model of `datetime.isoformat()` for an IST-zoned value. -/
def istIso (t : IstDT) : String :=
  pad4 t.year ++ "-" ++ pad2 t.month ++ "-" ++ pad2 t.day ++ "T"
    ++ pad2 t.hour ++ ":" ++ pad2 t.minute ++ ":" ++ pad2 t.second ++ "+05:30"

/-- Python `s.endswith("Z")`. -/
def endsWithZ (s : String) : Bool := s.data.getLast? == some 'Z'

/-- The fallback rewrite `dt_str[:-1] + "+00:00"`. -/
def rewriteZ (s : String) : String := String.mk s.data.dropLast ++ "+00:00"

/-- Model of `FetchUpcomingMeetingsTool._to_local`.  `sysOff` is the system
local zone offset in minutes: `astimezone(IST)` on a naive full timestamp
interprets it in the system zone (the 10-char branch instead stamps IST
midnight directly).  `Except.error` is an exception escaping `_to_local`:
the 10-char branch parses OUTSIDE any try block, so a malformed 10-char
string raises. -/
def toLocal (sysOff : Int) (o : Option String) : Except String (Option IstDT) :=
  match o with
  | none => Except.ok none
  | some s =>
    if s = "" then Except.ok none
    else if s.length = 10 then
      match parseDate s.data with
      | some (y, m, d) => Except.ok (some ⟨y, m, d, 0, 0, 0⟩)
      | none => Except.error (invalidIsoMsg s)
    else
      match pyFromIso s with
      | some dt => Except.ok (some (istFromInstant (dtInstant dt sysOff)))
      | none =>
        if endsWithZ s then
          match pyFromIso (rewriteZ s) with
          | some dt => Except.ok (some (istFromInstant (dtInstant dt sysOff)))
          | none => Except.ok none
        else Except.ok none

/-! ### The zoom marker filter (`_has_zoom`, regex `\bzoom\.us\b` with `re.I`) -/

/-- Regex word character, ASCII fragment of `\w`. -/
def isWordChar (c : Char) : Bool := c.isAlphanum || c == '_'

def zoomChars : List Char := ['z', 'o', 'o', 'm', '.', 'u', 's']

/-- Case-insensitive literal match of a lowercase pattern at the head. -/
def startsCI : List Char → List Char → Bool
  | [], _ => true
  | _ :: _, [] => false
  | p :: ps, c :: cs => p == c.toLower && startsCI ps cs

def boundaryL : Option Char → Bool
  | none => true
  | some c => !isWordChar c

def boundaryR : List Char → Bool
  | [] => true
  | c :: _ => !isWordChar c

/-- Scan for a word-bounded, case-insensitive occurrence of `zoom.us`;
`prev` is the character before the current position. -/
def zoomSearchAux : Option Char → List Char → Bool
  | _, [] => false
  | prev, c :: cs =>
    (boundaryL prev && startsCI zoomChars (c :: cs) && boundaryR ((c :: cs).drop 7))
      || zoomSearchAux (some c) cs

def hasZoomText (s : String) : Bool := zoomSearchAux none s.data

/-! ### Events and the `_run` pipeline -/

structure EvTime where
  dateTime : Option String
  date : Option String
deriving DecidableEq, Repr

structure Attendee where
  displayName : Option String
  email : Option String
  responseStatus : Option String
deriving DecidableEq, Repr

structure CalEvent where
  summary : Option String
  location : Option String
  description : Option String
  startTime : Option EvTime
  endTime : Option EvTime
  attendees : List Attendee
  htmlLink : Option String
deriving DecidableEq, Repr

/-- Python string truthiness for optional strings. -/
def pyTruthy (o : Option String) : Bool := !(o.getD "" == "")

/-- Python `a or b` on optional strings. -/
def pyOrOpt (a b : Option String) : Option String := if pyTruthy a then a else b

def pyOrEmpty (o : Option String) : String := o.getD ""

/-- `_has_zoom`: search location and description joined by one space. -/
def hasZoom (ev : CalEvent) : Bool :=
  hasZoomText (pyOrEmpty ev.location ++ " " ++ pyOrEmpty ev.description)

/-- `(ev.get("start") or {}).get("dateTime") or (ev.get("start") or {}).get("date")` -/
def rawTime (t : Option EvTime) : Option String :=
  pyOrOpt (t.getD ⟨none, none⟩).dateTime (t.getD ⟨none, none⟩).date

/-- One projected item of the calendar success payload. -/
structure CalItem where
  title : String
  day : Option String
  startLocal : Option String
  endLocal : Option String
  eventLink : Option String
  location : Option String
  description : Option String
  attendees : List Attendee
deriving DecidableEq, Repr

/-- Projection of one raw event into a `CalItem` (`_run`'s loop body after
the zoom filter); `toLocal` failures propagate as exceptions. -/
def calItemOfEvent (sysOff : Int) (ev : CalEvent) : Except String CalItem := do
  let sl ← toLocal sysOff (rawTime ev.startTime)
  let el ← toLocal sysOff (rawTime ev.endTime)
  Except.ok
    { title := if pyTruthy ev.summary then ev.summary.getD "" else "No Title"
      day := sl.map fun t => weekdayName t.year t.month t.day
      startLocal := sl.map istIso
      endLocal := el.map istIso
      eventLink := ev.htmlLink
      location := ev.location
      description := ev.description
      attendees := ev.attendees }

/-- The `require_zoom` filter applied to the fetched events. -/
def calFilter (requireZoom : Bool) (evs : List CalEvent) : List CalEvent :=
  evs.filter fun ev => !requireZoom || hasZoom ev

/-- Calendar backend: `auth = some msg` models `_authorize` returning its
own error-envelope string; `listEvents` takes the window instants and
models the `events().list` call (`Except.error` = raised exception). -/
structure CalBackend where
  auth : Option String
  listEvents : Int → Int → Except String (List CalEvent)

inductive CalResult where
  | ok (count : Nat) (items : List CalItem)
  | err (msg : String)
deriving DecidableEq, Repr

/-- The body of `_run` inside the try block (window derivation, fetch,
filter, projection). -/
def calRunBody (b : CalBackend) (sysOff now : Int) (startIso endIso : Option String)
    (requireZoom : Bool) : Except String (List CalItem) := do
  let w ← deriveWindow now startIso endIso
  let evs ← b.listEvents w.1 w.2
  (calFilter requireZoom evs).mapM (calItemOfEvent sysOff)

/-- Model of `FetchUpcomingMeetingsTool._run`: auth-error envelopes pass
through unchanged; every exception in the body becomes the
`Calendar fetch failed:` envelope. -/
def calRun (b : CalBackend) (sysOff now : Int) (startIso endIso : Option String)
    (requireZoom : Bool) : CalResult :=
  match b.auth with
  | some m => CalResult.err m
  | none =>
    match calRunBody b sysOff now startIso endIso requireZoom with
    | Except.ok items => CalResult.ok items.length items
    | Except.error e => CalResult.err ("Calendar fetch failed: " ++ e)

/-! ## gmail_tool.py -/

/-- `max(1, min(int(max_results), 10))` -/
def clampMaxResults (n : Int) : Int := max 1 (min n 10)

/-- Python `s[:k]` (only a stop index; negative stops count from the end). -/
def pySlice (s : String) (k : Int) : String :=
  if 0 ≤ k then String.mk (s.data.take k.toNat)
  else String.mk (s.data.take (s.data.length - min s.data.length (-k).toNat))

/-! ### `_safe_b64_to_text`: URL-safe base64 repadded, lenient decode -/

def b64Val (c : Char) : Option Nat :=
  if 65 ≤ c.toNat ∧ c.toNat ≤ 90 then some (c.toNat - 65)
  else if 97 ≤ c.toNat ∧ c.toNat ≤ 122 then some (c.toNat - 97 + 26)
  else if 48 ≤ c.toNat ∧ c.toNat ≤ 57 then some (c.toNat - 48 + 52)
  else if c == '+' then some 62
  else if c == '/' then some 63
  else none

def urlsafeToStd (c : Char) : Char :=
  if c == '-' then '+' else if c == '_' then '/' else c

/-- `data.replace("-","+").replace("_","/")` plus `"=" * ((4 - len % 4) % 4)`. -/
def repadded (s : String) : List Char :=
  let cs := s.data.map urlsafeToStd
  cs ++ List.replicate ((4 - cs.length % 4) % 4) '='

/-- Sextet groups to bytes (full quads give 3 bytes; a trailing pair or
triple gives 1 or 2). -/
def b64Groups : List Nat → List Nat
  | a :: b :: c :: d :: rest =>
    let v := ((a * 64 + b) * 64 + c) * 64 + d
    v / 65536 % 256 :: v / 256 % 256 :: v % 256 :: b64Groups rest
  | [a, b] => [(a * 64 + b) / 16 % 256]
  | [a, b, c] => [((a * 64 + b) * 64 + c) / 1024 % 256, ((a * 64 + b) * 64 + c) / 4 % 256]
  | _ => []

/-- Model of `base64.b64decode(_, validate=False)`: characters outside the
alphabet are discarded, the total (with `=`) must be a multiple of 4, data
stops at the first `=`, and a count of data characters ≡ 1 (mod 4) is an
error.  `Except.error` is the raised `binascii.Error`. -/
def b64decodePy (cs : List Char) : Except Unit (List Nat) :=
  let kept := cs.filter fun c => (b64Val c).isSome || c == '='
  if kept.length % 4 != 0 then Except.error ()
  else
    let dataCs := kept.takeWhile fun c => c != '='
    if dataCs.length % 4 == 1 then Except.error ()
    else Except.ok (b64Groups (dataCs.filterMap b64Val))

def repChar : Char := Char.ofNat 0xFFFD

def isCont (b : Nat) : Bool := 128 ≤ b && b < 192

/-- Model of `bytes.decode("utf-8", errors="replace")`: valid sequences
decode to their scalar; an invalid byte yields one replacement character
and the scan resumes at the next byte (CPython groups some multi-byte
errors differently; valid input and pure ASCII agree exactly). -/
def utf8dAux : Nat → List Nat → List Char
  | 0, _ => []
  | _ + 1, [] => []
  | f + 1, b :: rest =>
    if b < 128 then Char.ofNat b :: utf8dAux f rest
    else if 194 ≤ b && b ≤ 223 then
      match rest with
      | b2 :: rest2 =>
        if isCont b2 then Char.ofNat ((b - 192) * 64 + (b2 - 128)) :: utf8dAux f rest2
        else repChar :: utf8dAux f rest
      | [] => [repChar]
    else if 224 ≤ b && b ≤ 239 then
      match rest with
      | b2 :: b3 :: rest3 =>
        if (if b = 224 then 160 ≤ b2 && b2 < 192
            else if b = 237 then 128 ≤ b2 && b2 < 160
            else isCont b2) && isCont b3 then
          Char.ofNat ((b - 224) * 4096 + (b2 - 128) * 64 + (b3 - 128)) :: utf8dAux f rest3
        else repChar :: utf8dAux f rest
      | _ => repChar :: utf8dAux f rest
    else if 240 ≤ b && b ≤ 244 then
      match rest with
      | b2 :: b3 :: b4 :: rest4 =>
        if (if b = 240 then 144 ≤ b2 && b2 < 192
            else if b = 244 then 128 ≤ b2 && b2 < 144
            else isCont b2) && isCont b3 && isCont b4 then
          Char.ofNat ((b - 240) * 262144 + (b2 - 128) * 4096 + (b3 - 128) * 64 + (b4 - 128))
            :: utf8dAux f rest4
        else repChar :: utf8dAux f rest
      | _ => repChar :: utf8dAux f rest
    else repChar :: utf8dAux f rest

def utf8d (bs : List Nat) : List Char := utf8dAux (bs.length + 1) bs

def listStarts : List Char → List Char → Bool
  | [], _ => true
  | _ :: _, [] => false
  | p :: ps, c :: cs => p == c && listStarts ps cs

/-- Model of `html.unescape` restricted to the named entities the tool can
realistically meet (`amp`, `lt`, `gt`, `quot`); other ampersands pass
through unchanged. -/
def unescapeAux : Nat → List Char → List Char
  | 0, s => s
  | _ + 1, [] => []
  | f + 1, '&' :: rest =>
    if listStarts ['a', 'm', 'p', ';'] rest then '&' :: unescapeAux f (rest.drop 4)
    else if listStarts ['l', 't', ';'] rest then '<' :: unescapeAux f (rest.drop 3)
    else if listStarts ['g', 't', ';'] rest then '>' :: unescapeAux f (rest.drop 3)
    else if listStarts ['q', 'u', 'o', 't', ';'] rest then '"' :: unescapeAux f (rest.drop 5)
    else '&' :: unescapeAux f rest
  | f + 1, c :: cs => c :: unescapeAux f cs

/-- Model of `GmailMeetingTool._safe_b64_to_text`: repad, decode leniently,
UTF-8-decode with replacement, unescape; a decode error yields `""`. -/
def safeB64ToText (s : String) : String :=
  match b64decodePy (repadded s) with
  | Except.error _ => ""
  | Except.ok bytes =>
    let cs := utf8d bytes
    String.mk (unescapeAux (cs.length + 1) cs)

/-! ### `_strip_html`: the six regex passes plus `strip()` -/

def wsChar (c : Char) : Bool :=
  c == ' ' || c == '\t' || c == '\n' || c == '\x0d' || c == '\x0b' || c == '\x0c'

/-- Suffix after the first `>`. -/
def afterGt : List Char → Option (List Char)
  | [] => none
  | '>' :: r => some r
  | _ :: r => afterGt r

/-- Suffix after the first case-insensitive `</name>`. -/
def afterClose (name : List Char) : List Char → Option (List Char)
  | [] => none
  | c :: r =>
    if c == '<' then
      match r with
      | '/' :: r2 =>
        if startsCI name r2 then
          match r2.drop name.length with
          | '>' :: r3 => some r3
          | _ => afterClose name r
        else afterClose name r
      | _ => afterClose name r
    else afterClose name r

def scriptName : List Char := ['s', 'c', 'r', 'i', 'p', 't']
def styleName : List Char := ['s', 't', 'y', 'l', 'e']

def tryBlockTag (name : List Char) (cs : List Char) : Option (List Char) :=
  if startsCI name cs then
    match afterGt (cs.drop name.length) with
    | some r1 => afterClose name r1
    | none => none
  else none

/-- Pass 1: `re.sub(r"(?is)<(script|style).*?>.*?</\1>", "", _)`. -/
def rmScriptStyle : Nat → List Char → List Char
  | 0, s => s
  | _ + 1, [] => []
  | f + 1, c :: cs =>
    if c == '<' then
      match tryBlockTag scriptName cs with
      | some r => rmScriptStyle f r
      | none =>
        match tryBlockTag styleName cs with
        | some r => rmScriptStyle f r
        | none => c :: rmScriptStyle f cs
    else c :: rmScriptStyle f cs

/-- Pass 2: `re.sub(r"(?s)<br\s*/?>", "\n", _)` (case-sensitive). -/
def brPass : Nat → List Char → List Char
  | 0, s => s
  | _ + 1, [] => []
  | f + 1, c :: cs =>
    if c == '<' && listStarts ['b', 'r'] cs then
      let r := (cs.drop 2).dropWhile wsChar
      let r2 := match r with | '/' :: rr => rr | _ => r
      match r2 with
      | '>' :: rr2 => '\n' :: brPass f rr2
      | _ => c :: brPass f cs
    else c :: brPass f cs

/-- Pass 3: `re.sub(r"(?s)</p\s*>", "\n", _)` (case-sensitive). -/
def pClosePass : Nat → List Char → List Char
  | 0, s => s
  | _ + 1, [] => []
  | f + 1, c :: cs =>
    if c == '<' && listStarts ['/', 'p'] cs then
      match (cs.drop 2).dropWhile wsChar with
      | '>' :: rr => '\n' :: pClosePass f rr
      | _ => c :: pClosePass f cs
    else c :: pClosePass f cs

/-- Pass 4: `re.sub(r"(?s)<[^>]+>", "", _)`. -/
def tagPass : Nat → List Char → List Char
  | 0, s => s
  | _ + 1, [] => []
  | f + 1, c :: cs =>
    if c == '<' then
      match cs with
      | c2 :: _ =>
        if c2 == '>' then c :: tagPass f cs
        else
          match afterGt cs with
          | some r => tagPass f r
          | none => c :: tagPass f cs
      | [] => [c]
    else c :: tagPass f cs

/-- Pass 5: `re.sub(r"[ \t]+\n", "\n", _)`. -/
def spaceTabNl : Nat → List Char → List Char
  | 0, s => s
  | _ + 1, [] => []
  | f + 1, c :: cs =>
    if c == ' ' || c == '\t' then
      let isST : Char → Bool := fun x => x == ' ' || x == '\t'
      let run := (c :: cs).takeWhile isST
      match (c :: cs).dropWhile isST with
      | '\n' :: rr => '\n' :: spaceTabNl f rr
      | rest => run ++ spaceTabNl f rest
    else c :: spaceTabNl f cs

/-- Pass 6: `re.sub(r"\n{3,}", "\n\n", _)`. -/
def collapseNl : Nat → List Char → List Char
  | 0, s => s
  | _ + 1, [] => []
  | f + 1, c :: cs =>
    if c == '\n' then
      let n := ((c :: cs).takeWhile fun x => x == '\n').length
      (if 3 ≤ n then ['\n', '\n'] else List.replicate n '\n')
        ++ collapseNl f ((c :: cs).dropWhile fun x => x == '\n')
    else c :: collapseNl f cs

/-- Python `str.strip()` (ASCII whitespace fragment). -/
def pyStripList (cs : List Char) : List Char :=
  ((cs.dropWhile wsChar).reverse.dropWhile wsChar).reverse

def pyStrip (s : String) : String := String.mk (pyStripList s.data)

/-- Model of `GmailMeetingTool._strip_html`. -/
def stripHtml (s : String) : String :=
  let c1 := rmScriptStyle (s.data.length + 1) s.data
  let c2 := brPass (c1.length + 1) c1
  let c3 := pClosePass (c2.length + 1) c2
  let c4 := tagPass (c3.length + 1) c3
  let c5 := spaceTabNl (c4.length + 1) c4
  let c6 := collapseNl (c5.length + 1) c5
  String.mk (pyStripList c6)

/-! ### `_extract_plain_text` over the nested MIME structure -/

mutual
inductive MimePayload where
  | mk (mimeType : Option String) (bodyData : Option String) (parts : PayloadList)
inductive PayloadList where
  | nil
  | cons (p : MimePayload) (ps : PayloadList)
end

def payloadMime : MimePayload → Option String
  | .mk mime _ _ => mime

/-- `payload.get("body", {}).get("data")` under `if data:` truthiness. -/
def payloadData : MimePayload → Option String
  | .mk _ data _ =>
    match data with
    | some s => if s == "" then none else some s
    | none => none

def payloadParts : MimePayload → PayloadList
  | .mk _ _ parts => parts

/-- First `text/plain` part whose data is truthy. -/
def findPlain : PayloadList → Option String
  | .nil => none
  | .cons p ps =>
    if payloadMime p == some "text/plain" then
      match payloadData p with
      | some d => some d
      | none => findPlain ps
    else findPlain ps

/-- First `text/html` part whose data is truthy. -/
def findHtml : PayloadList → Option String
  | .nil => none
  | .cons p ps =>
    if payloadMime p == some "text/html" then
      match payloadData p with
      | some d => some d
      | none => findHtml ps
    else findHtml ps

def payloadListIsNil : PayloadList → Bool
  | .nil => true
  | .cons _ _ => false

mutual
/-- Model of `GmailMeetingTool._extract_plain_text`: a direct body wins
(HTML-stripped when its mime type is `text/html`), else the first truthy
`text/plain` part, else the first truthy `text/html` part stripped, else
the newline-join of the recursively extracted non-empty subpart texts,
stripped. -/
def extractPlainText : MimePayload → String
  | .mk mime data parts =>
    match (match data with | some s => if s == "" then none else some s | none => none) with
    | some ds =>
      let text := safeB64ToText ds
      if mime == some "text/html" then stripHtml text else text
    | none =>
      match parts with
      | .nil => ""
      | .cons _ _ =>
        match findPlain parts with
        | some dt => safeB64ToText dt
        | none =>
          match findHtml parts with
          | some dt => stripHtml (safeB64ToText dt)
          | none => pyStrip (String.intercalate "\n" ((collectTexts parts).filter fun t => t ≠ ""))

def collectTexts : PayloadList → List String
  | .nil => []
  | .cons p ps => extractPlainText p :: collectTexts ps
end

/-! ### `GmailMeetingTool._run` -/

structure MsgMeta where
  headers : List (String × String)
  snippet : String
deriving Repr

structure MailRecord where
  id : String
  subject : String
  sender : String
  date : String
  snippet : String
  body : Option String
deriving DecidableEq, Repr

/-- Gmail backend: `tokenEnv` is `os.getenv("GMAIL_TKN")`; `setup` models
token parsing, credential construction and service build; `search` gets the
query and the (clamped) max result count and yields message ids; `getMeta`
and `getFull` are the two message fetches. -/
structure GmailBackend where
  tokenEnv : Option String
  setup : Except String Unit
  search : String → Int → Except String (List String)
  getMeta : String → Except String MsgMeta
  getFull : String → Except String MimePayload

inductive GmailResult where
  | ok (count : Nat) (items : List MailRecord)
  | err (msg : String)
deriving DecidableEq, Repr

/-- `{h["name"]: h["value"] for h in headers}` then `.get(k, dflt)`:
a dict comprehension keeps the LAST pair for a repeated key. -/
def headerGet (ps : List (String × String)) (k dflt : String) : String :=
  match ps.reverse.find? fun p => p.1 == k with
  | some p => p.2
  | none => dflt

/-- One iteration of the message loop (metadata fetch, optional full fetch
with body extraction and hard truncation). -/
def gmailRecord (b : GmailBackend) (includeBody : Bool) (bodyCharLimit : Int)
    (mid : String) : Except String MailRecord := do
  let msg ← b.getMeta mid
  let base : MailRecord :=
    { id := mid
      subject := headerGet msg.headers "Subject" "No Subject"
      sender := headerGet msg.headers "From" "No Sender"
      date := headerGet msg.headers "Date" "No Date"
      snippet := if msg.snippet == "" then "" else pySlice msg.snippet 300
      body := none }
  if includeBody then do
    let full ← b.getFull mid
    let bodyText := extractPlainText full
    Except.ok { base with body := some (if bodyText == "" then "" else pySlice bodyText bodyCharLimit) }
  else
    Except.ok base

/-- Model of `GmailMeetingTool._run`.  The missing-token check returns its
envelope from inside the try block without raising; every exception becomes
the `Error while accessing Gmail:` envelope. -/
def gmailRun (b : GmailBackend) (query : String) (maxResults : Int) (includeBody : Bool)
    (bodyCharLimit : Int) : GmailResult :=
  let body : Except String GmailResult :=
    match b.tokenEnv with
    | none => Except.ok (GmailResult.err "GMAIL_TKN not found in environment")
    | some _ => do
      let _ ← b.setup
      let ids ← b.search query (clampMaxResults maxResults)
      if ids.isEmpty then
        Except.ok (GmailResult.ok 0 [])
      else do
        let items ← ids.mapM (gmailRecord b includeBody bodyCharLimit)
        Except.ok (GmailResult.ok items.length items)
  match body with
  | Except.ok r => r
  | Except.error e => GmailResult.err ("Error while accessing Gmail: " ++ e)

/-! ## hubspot_tool.py -/

/-- A HubSpot `properties` mapping. -/
abbrev Props := List (String × String)

/-- `x or {}` on an optional mapping. -/
def orEmpty (o : Option Props) : Props := o.getD []

/-- Python dict truthiness of an optional mapping (`None` and `{}` are
falsy). -/
def propsTruthy (o : Option Props) : Bool :=
  match o with
  | some p => !p.isEmpty
  | none => false

/-- Contact fetch result: `properties`, and the association lists (absent
when the `getattr`/`in` guard fails).  Each association entry is the
outcome of its own `get_by_id` call (`Except.error` = raised, skipped). -/
structure ContactData where
  props : Option Props
  companiesAssoc : Option (List (Except Unit (Option Props)))
  dealsAssoc : Option (List (Except Unit (Option Props)))

/-- HubSpot backend: client construction outcome, meeting search outcome
(the list of search results with their `properties`), and the contact
fetch outcome. -/
structure CrmBackend where
  auth : Except String Unit
  meetingSearch : Except Unit (List (Option Props))
  contact : Except Unit ContactData

inductive CrmResult where
  | authErr (reason : String)
  | notFound
  | found (meeting contact : Props) (companies deals : List Props)
deriving DecidableEq, Repr

def assocOk (f : Except Unit (Option Props)) : Option Props :=
  match f with
  | Except.ok p => some (orEmpty p)
  | Except.error _ => none

/-- The per-item fan-out: first three associations, each fetched under its
own try, failures skipped. -/
def fetchAssocs (l : List (Except Unit (Option Props))) : List Props :=
  (l.take 3).filterMap assocOk

/-- `meeting_obj` after step 1 (silent best effort). -/
def crmMeetingObj (b : CrmBackend) : Option Props :=
  match b.meetingSearch with
  | Except.error _ => none
  | Except.ok results =>
    match results with
    | [] => none
    | r :: _ => some (orEmpty r)

/-- `contact_obj` after step 2. -/
def crmContactObj (b : CrmBackend) : Option Props :=
  match b.contact with
  | Except.error _ => none
  | Except.ok cd => some (orEmpty cd.props)

def crmCompanies (b : CrmBackend) : List Props :=
  match b.contact with
  | Except.error _ => []
  | Except.ok cd =>
    match cd.companiesAssoc with
    | some l => fetchAssocs l
    | none => []

def crmDeals (b : CrmBackend) : List Props :=
  match b.contact with
  | Except.error _ => []
  | Except.ok cd =>
    match cd.dealsAssoc with
    | some l => fetchAssocs l
    | none => []

/-- Model of `HubSpotSearchTool._run`: client-construction failure yields
the auth envelope; `has_anything = any([meeting_obj, contact_obj,
companies, deals])` under Python truthiness decides between the exact
not-found envelope and the found payload. -/
def crmRun (b : CrmBackend) : CrmResult :=
  match b.auth with
  | Except.error e => CrmResult.authErr ("Auth error: " ++ e)
  | Except.ok _ =>
    if propsTruthy (crmMeetingObj b) || propsTruthy (crmContactObj b)
        || !(crmCompanies b).isEmpty || !(crmDeals b).isEmpty then
      CrmResult.found (orEmpty (crmMeetingObj b)) (orEmpty (crmContactObj b))
        (crmCompanies b) (crmDeals b)
    else CrmResult.notFound

/-! ## doc_tool.py -/

/-- Arguments of the Google API calls the tool makes, in order. -/
inductive DocEffect where
  | created (title : String)
  | inserted (docId : String) (index : Nat) (text : String)
  | permissionSet (docId : String) (ptype role : String)
deriving DecidableEq, Repr

/-- Doc backend: `setup` models env lookup, token JSON parsing, credential
construction and refresh; the other three are the Docs/Drive calls. -/
structure DocBackend where
  setup : Except String Unit
  createDoc : String → Except String String
  applyBatch : String → Nat → String → Except String Unit
  setPermission : String → String → String → Except String Unit

/-- `datetime.now().strftime("%A %Y-%m-%d")`. -/
def docTitle (y : Int) (m d : Nat) : String :=
  weekdayName y m d ++ " " ++ pad4 y ++ "-" ++ pad2 m ++ "-" ++ pad2 d

def docUrl (docId : String) : String :=
  "https://docs.google.com/document/d/" ++ docId ++ "/edit"

/-- Model of `GoogleDocTool._run`: create a document titled with the
current weekday and date, insert the summary plus newline at index 1, set
the `anyone`/`writer` permission, return the edit URL; any step's raised
exception yields the plain prefixed error string.  The second component
records the calls that were issued (with their arguments). -/
def docRun (b : DocBackend) (y : Int) (m d : Nat) (summary : String) :
    String × List DocEffect :=
  match b.setup with
  | Except.error e => ("Error creating document: " ++ e, [])
  | Except.ok _ =>
    let title := docTitle y m d
    let eff1 := [DocEffect.created title]
    match b.createDoc title with
    | Except.error e => ("Error creating document: " ++ e, eff1)
    | Except.ok docId =>
      let eff2 := eff1 ++ [DocEffect.inserted docId 1 (summary ++ "\n")]
      match b.applyBatch docId 1 (summary ++ "\n") with
      | Except.error e => ("Error creating document: " ++ e, eff2)
      | Except.ok _ =>
        let eff3 := eff2 ++ [DocEffect.permissionSet docId "anyone" "writer"]
        match b.setPermission docId "anyone" "writer" with
        | Except.error e => ("Error creating document: " ++ e, eff3)
        | Except.ok _ => (docUrl docId, eff3)

/-! ## Concrete fixture backends used by witnesses and counterexamples -/

def cbTrivial : CalBackend :=
  { auth := none, listEvents := fun _ _ => Except.ok [] }

def gbTrivial : GmailBackend :=
  { tokenEnv := some "tok"
    setup := Except.ok ()
    search := fun _ _ => Except.ok []
    getMeta := fun _ => Except.error "unused"
    getFull := fun _ => Except.error "unused" }

def gbOneMsg : GmailBackend :=
  { tokenEnv := some "tok"
    setup := Except.ok ()
    search := fun _ _ => Except.ok ["m1"]
    getMeta := fun _ => Except.ok { headers := [("Subject", "S")], snippet := "sn" }
    getFull := fun _ => Except.ok (MimePayload.mk (some "text/plain") (some "YWJj") PayloadList.nil) }

def crmContactOnly : CrmBackend :=
  { auth := Except.ok ()
    meetingSearch := Except.error ()
    contact := Except.ok
      { props := some [("email", "a@b.c")]
        companiesAssoc := some [Except.ok (some [("name", "Acme")]), Except.error ()]
        dealsAssoc := none } }

def docAllOk : DocBackend :=
  { setup := Except.ok ()
    createDoc := fun _ => Except.ok "D1"
    applyBatch := fun _ _ _ => Except.ok ()
    setPermission := fun _ _ _ => Except.ok () }

def mixedParts : PayloadList :=
  PayloadList.cons (MimePayload.mk (some "text/html") (some "PGI+eDwvYj4=") PayloadList.nil)
    (PayloadList.cons (MimePayload.mk (some "text/plain") (some "YWJj") PayloadList.nil)
      PayloadList.nil)

/-! ## Claim theorems -/

/-- C2, counterexample: the Calendar Adapter derives the window directly
from `start_iso`/`end_iso` with no ordering check, so an explicit inverted
pair yields start > end (instants in seconds; both strings are naive and
stamped IST). -/
theorem c2_window_counterexample :
    deriveWindow 0 (some "2025-01-10T00:00:00") (some "2025-01-01T00:00:00")
        = Except.ok (1736447400, 1735669800)
      ∧ ¬((1736447400 : Int) ≤ 1735669800) := by
  exact ⟨rfl, by decide⟩

/-- C2 (amended): whenever `end_iso` is unspecified the derived window
satisfies start ≤ end with end − start exactly 7 days (604800 s), and with
both unspecified the start is exactly `now`; when both are specified no
ordering is enforced. -/
theorem c2_window_defaults (now : Int) :
    (∀ si s e, deriveWindow now si none = Except.ok (s, e) → s ≤ e ∧ e - s = 604800) ∧
    deriveWindow now none none = Except.ok (now, now + 604800) := by
  constructor
  · intro si s e h
    cases si with
    | none =>
      simp only [deriveWindow, pure, Except.pure, Except.bind, bind] at h
      cases h
      omega
    | some v =>
      simp only [deriveWindow, pure, Except.pure, Except.bind, bind] at h
      cases hp : parseIsoLocal v with
      | error m => rw [hp] at h; cases h
      | ok i => rw [hp] at h; cases h; omega
  · rfl

/-- C2 witness: defaults at a concrete call. -/
theorem c2_window_defaults_witness :
    (1735669800 : Int) ≤ 1736274600 ∧ (1736274600 : Int) - 1735669800 = 604800 :=
  (c2_window_defaults 5).1 (some "2025-01-01T00:00:00") 1735669800 1736274600 rfl

/-- C3: with `require_zoom = true` the filter keeps exactly the events
whose location/description text contains the case-insensitive word-bounded
marker `zoom.us`; with `require_zoom = false` all events are kept; the
marker test is case-insensitive and word-bounded (`xzoom.us`, `zoom.usa`,
and text mentioning only `zoomies.us` do not match). -/
theorem c3_zoom_marker_filter :
    (∀ (evs : List CalEvent) (ev : CalEvent),
        ev ∈ calFilter true evs ↔ ev ∈ evs ∧ hasZoom ev = true) ∧
    (∀ evs : List CalEvent, calFilter false evs = evs) ∧
    hasZoomText "Join via ZOOM.US room" = true ∧
    hasZoomText "see zoomies.us for details" = false ∧
    hasZoomText "xzoom.us" = false ∧
    hasZoomText "zoom.usa" = false ∧
    hasZoomText "link: zoom.us/j/123" = true := by
  refine ⟨?_, ?_, by decide, by decide, by decide, by decide, by decide⟩
  · intro evs ev
    simp [calFilter, List.mem_filter]
  · intro evs
    simp [calFilter]

/-- C4, counterexample: a 10-character unparseable value is parsed OUTSIDE
the try/except of `_to_local`, so it raises instead of degrading to null
(the exception is only caught by `_run`'s outer envelope handler). -/
theorem c4_to_local_counterexample :
    toLocal 0 (some "not-a-date") = Except.error (invalidIsoMsg "not-a-date") := rfl

/-- C4 (amended): absent and empty inputs yield null; a valid date-only
10-character string yields IST midnight; any unparseable input whose length
is NOT 10 degrades to null after at most one trailing-Z rewrite; but an
unparseable 10-character input raises out of `_to_local` and fails the
whole adapter call. -/
theorem c4_to_local_behaviour (sysOff : Int) (s : String) :
    toLocal sysOff none = Except.ok none ∧
    toLocal sysOff (some "") = Except.ok none ∧
    (∀ y m d, s.length = 10 → parseDate s.data = some (y, m, d) →
      toLocal sysOff (some s) = Except.ok (some ⟨y, m, d, 0, 0, 0⟩)) ∧
    (s ≠ "" → s.length ≠ 10 → ∃ v, toLocal sysOff (some s) = Except.ok v) ∧
    (s ≠ "" → s.length ≠ 10 → pyFromIso s = none → ¬endsWithZ s →
      toLocal sysOff (some s) = Except.ok none) ∧
    (s ≠ "" → s.length ≠ 10 → pyFromIso s = none → endsWithZ s →
      pyFromIso (rewriteZ s) = none →
      toLocal sysOff (some s) = Except.ok none) := by
  refine ⟨rfl, rfl, ?_, ?_, ?_, ?_⟩
  · intro y m d hlen hp
    simp only [toLocal]
    rw [if_neg (by intro h; rw [h] at hlen; simp at hlen), if_pos hlen, hp]
  · intro hne hlen
    simp only [toLocal]
    rw [if_neg hne, if_neg hlen]
    cases hp : pyFromIso s with
    | some dt => exact ⟨_, rfl⟩
    | none =>
      by_cases hz : endsWithZ s
      · rw [if_pos hz]
        cases pyFromIso (rewriteZ s) with
        | some dt => exact ⟨_, rfl⟩
        | none => exact ⟨none, rfl⟩
      · rw [if_neg hz]
        exact ⟨none, rfl⟩
  · intro hne hlen hp hz
    simp only [toLocal]
    rw [if_neg hne, if_neg hlen, hp, if_neg hz]
  · intro hne hlen hp hz hp2
    simp only [toLocal]
    rw [if_neg hne, if_neg hlen, hp, if_pos hz, hp2]

/-- C4 witness: date-only input and an unparseable non-10-char Z input. -/
theorem c4_to_local_witness :
    toLocal 0 (some "2025-03-10") = Except.ok (some ⟨2025, 3, 10, 0, 0, 0⟩) ∧
    toLocal 0 (some "garbage!Z") = Except.ok none :=
  ⟨(c4_to_local_behaviour 0 "2025-03-10").2.2.1 2025 3 10 (by decide) (by decide),
   (c4_to_local_behaviour 0 "garbage!Z").2.2.2.2.2 (by decide) (by decide) (by decide)
     (by decide) (by decide)⟩

/-- C7: the Mail Adapter's `max_results` is clamped into [1,10] before the
search: 0 maps to 1, 15 maps to 10, 5 maps to 5, and every input lands in
the interval (`gmailRun` passes `clampMaxResults` to the search call). -/
theorem c7_max_results_clamp :
    clampMaxResults 0 = 1 ∧ clampMaxResults 15 = 10 ∧ clampMaxResults 5 = 5 ∧
    ∀ n : Int, 1 ≤ clampMaxResults n ∧ clampMaxResults n ≤ 10 := by
  refine ⟨by decide, by decide, by decide, fun n => ?_⟩
  exact ⟨le_max_left 1 _, max_le (by norm_num) (min_le_right n 10)⟩

/-- C1: every adapter operation, for every input and every
backend/credential outcome, returns exactly one well-formed result — a
success payload or that adapter's error envelope (the Document Publisher's
being a plain string: edit URL or `Error creating document: `-prefixed) —
and never propagates an exception: the run functions are total and every
result is one of the listed shapes. -/
theorem c1_uniform_result_contract :
    (∀ (b : CalBackend) (sysOff now : Int) (si ei : Option String) (rz : Bool),
      (∃ c items, calRun b sysOff now si ei rz = CalResult.ok c items) ∨
      (∃ m, calRun b sysOff now si ei rz = CalResult.err m)) ∧
    (∀ (b : GmailBackend) (q : String) (n : Int) (ib : Bool) (lim : Int),
      (∃ c items, gmailRun b q n ib lim = GmailResult.ok c items) ∨
      (∃ m, gmailRun b q n ib lim = GmailResult.err m)) ∧
    (∀ b : CrmBackend,
      (∃ m c cos ds, crmRun b = CrmResult.found m c cos ds) ∨
      crmRun b = CrmResult.notFound ∨ (∃ r, crmRun b = CrmResult.authErr r)) ∧
    (∀ (b : DocBackend) (y : Int) (m d : Nat) (s : String),
      (∃ docId, (docRun b y m d s).1 = docUrl docId) ∨
      (∃ e, (docRun b y m d s).1 = "Error creating document: " ++ e)) := by
  refine ⟨?_, ?_, ?_, ?_⟩
  · intro b sysOff now si ei rz
    cases hr : calRun b sysOff now si ei rz with
    | ok c items => exact Or.inl ⟨c, items, rfl⟩
    | err m => exact Or.inr ⟨m, rfl⟩
  · intro b q n ib lim
    cases hr : gmailRun b q n ib lim with
    | ok c items => exact Or.inl ⟨c, items, rfl⟩
    | err m => exact Or.inr ⟨m, rfl⟩
  · intro b
    cases hr : crmRun b with
    | found m c cos ds => exact Or.inl ⟨m, c, cos, ds, rfl⟩
    | notFound => exact Or.inr (Or.inl rfl)
    | authErr r => exact Or.inr (Or.inr ⟨r, rfl⟩)
  · intro b y m d s
    rcases hs : b.setup with e | u
    · exact Or.inr ⟨e, by simp [docRun, hs]⟩
    · rcases hc : b.createDoc (docTitle y m d) with e | docId
      · exact Or.inr ⟨e, by simp [docRun, hs, hc]⟩
      · rcases ha : b.applyBatch docId 1 (s ++ "\n") with e | u2
        · exact Or.inr ⟨e, by simp [docRun, hs, hc, ha]⟩
        · rcases hp : b.setPermission docId "anyone" "writer" with e | u3
          · exact Or.inr ⟨e, by simp [docRun, hs, hc, ha, hp]⟩
          · exact Or.inl ⟨docId, by simp [docRun, hs, hc, ha, hp]⟩

/-- C10: in every success result of the Calendar Adapter and the
Mail Adapter, `count` equals the length of `items` (the zero-match case
included). -/
theorem c10_count_matches_items (bc : CalBackend) (bg : GmailBackend) (sysOff now : Int)
    (si ei : Option String) (rz : Bool) (q : String) (n : Int) (ib : Bool) (lim : Int) :
    (∀ c items, calRun bc sysOff now si ei rz = CalResult.ok c items → c = items.length) ∧
    (∀ c items, gmailRun bg q n ib lim = GmailResult.ok c items → c = items.length) := by
  constructor
  · intro c items h
    unfold calRun at h
    cases ha : bc.auth with
    | some m => simp only [ha] at h; cases h
    | none =>
      simp only [ha] at h
      cases hb : calRunBody bc sysOff now si ei rz with
      | ok its => simp only [hb] at h; cases h; rfl
      | error e => simp only [hb] at h; cases h
  · intro c items h
    unfold gmailRun at h
    cases ht : bg.tokenEnv with
    | none => simp only [ht] at h; cases h
    | some tok =>
      simp only [ht, bind, Except.bind] at h
      cases hs : bg.setup with
      | error e => simp only [hs] at h; cases h
      | ok u =>
        simp only [hs] at h
        cases hsr : bg.search q (clampMaxResults n) with
        | error e => simp only [hsr] at h; cases h
        | ok ids =>
          simp only [hsr] at h
          cases hids : ids.isEmpty with
          | true => simp only [hids, if_true] at h; cases h; rfl
          | false =>
            simp only [hids] at h
            cases hm : List.mapM (gmailRecord bg ib lim) ids with
            | error e => simp only [hm] at h; cases h
            | ok its => simp only [hm] at h; cases h; rfl

/-- C10 witness: concrete zero-match runs of both adapters. -/
theorem c10_count_matches_items_witness :
    (0 : Nat) = ([] : List CalItem).length ∧ (0 : Nat) = ([] : List MailRecord).length :=
  ⟨(c10_count_matches_items cbTrivial gbTrivial 0 0 none none true "q" 5 false 800).1
      0 [] rfl,
   (c10_count_matches_items cbTrivial gbTrivial 0 0 none none true "q" 5 false 800).2
      0 [] rfl⟩

/-- C5: under a successfully constructed client, the three CRM sub-lookups
are isolated and best effort — a meeting-search failure still yields
`found` from non-empty contact data; companies/deals are exactly the
successful fetches among the first three associations (so at most 3 each);
`found` holds iff at least one of the four collections is non-empty under
Python truthiness; and when all are empty or failed the result is exactly
the `No HubSpot data found` envelope. -/
theorem c5_crm_best_effort (b : CrmBackend) (hauth : b.auth = Except.ok ()) :
    (∀ cd, b.meetingSearch = Except.error () → b.contact = Except.ok cd →
      orEmpty cd.props ≠ [] →
      crmRun b = CrmResult.found [] (orEmpty cd.props) (crmCompanies b) (crmDeals b)) ∧
    (∀ cd l, b.contact = Except.ok cd → cd.companiesAssoc = some l →
      crmCompanies b = (l.take 3).filterMap assocOk ∧ (crmCompanies b).length ≤ 3) ∧
    (∀ cd l, b.contact = Except.ok cd → cd.dealsAssoc = some l →
      crmDeals b = (l.take 3).filterMap assocOk ∧ (crmDeals b).length ≤ 3) ∧
    ((∃ m c cos ds, crmRun b = CrmResult.found m c cos ds) ↔
      (propsTruthy (crmMeetingObj b) || propsTruthy (crmContactObj b)
        || !(crmCompanies b).isEmpty || !(crmDeals b).isEmpty) = true) ∧
    (propsTruthy (crmMeetingObj b) = false → propsTruthy (crmContactObj b) = false →
      crmCompanies b = [] → crmDeals b = [] → crmRun b = CrmResult.notFound) := by
  refine ⟨?_, ?_, ?_, ?_, ?_⟩
  · intro cd hms hc hne
    have hm : crmMeetingObj b = none := by unfold crmMeetingObj; rw [hms]
    have hco : crmContactObj b = some (orEmpty cd.props) := by unfold crmContactObj; rw [hc]
    have htr : propsTruthy (crmContactObj b) = true := by
      rw [hco]; unfold propsTruthy
      cases he : orEmpty cd.props with
      | nil => exact absurd he hne
      | cons x xs => rfl
    simp only [crmRun, hauth]
    rw [if_pos (by rw [htr]; simp)]
    rw [hm, hco]
    rfl
  · intro cd l hc hl
    have : crmCompanies b = fetchAssocs l := by simp only [crmCompanies, hc, hl]
    refine ⟨this, ?_⟩
    rw [this]
    unfold fetchAssocs
    calc ((l.take 3).filterMap assocOk).length ≤ (l.take 3).length :=
          List.length_filterMap_le _ _
      _ ≤ 3 := List.length_take_le 3 l
  · intro cd l hc hl
    have : crmDeals b = fetchAssocs l := by simp only [crmDeals, hc, hl]
    refine ⟨this, ?_⟩
    rw [this]
    unfold fetchAssocs
    calc ((l.take 3).filterMap assocOk).length ≤ (l.take 3).length :=
          List.length_filterMap_le _ _
      _ ≤ 3 := List.length_take_le 3 l
  · constructor
    · rintro ⟨m, c, cos, ds, h⟩
      simp only [crmRun, hauth] at h
      by_cases hcond : (propsTruthy (crmMeetingObj b) || propsTruthy (crmContactObj b)
          || !(crmCompanies b).isEmpty || !(crmDeals b).isEmpty) = true
      · exact hcond
      · rw [if_neg hcond] at h
        cases h
    · intro hcond
      simp only [crmRun, hauth]
      rw [if_pos hcond]
      exact ⟨_, _, _, _, rfl⟩
  · intro h1 h2 h3 h4
    simp only [crmRun, hauth]
    rw [if_neg (by simp [h1, h2, h3, h4])]

/-- C5 witness: meeting search raised, contact-only data, one company
fetch failed and skipped. -/
theorem c5_crm_best_effort_witness :
    crmRun crmContactOnly
      = CrmResult.found [] [("email", "a@b.c")] [[("name", "Acme")]] [] :=
  (c5_crm_best_effort crmContactOnly rfl).1
    { props := some [("email", "a@b.c")]
      companiesAssoc := some [Except.ok (some [("name", "Acme")]), Except.error ()]
      dealsAssoc := none }
    rfl rfl (by decide)

/-- C8: `_safe_b64_to_text` is total — a lenient-decode error (malformed
padding or characters) yields the empty string, and a successful decode
yields the unescaped replacement-decoded text; no input raises. -/
theorem c8_b64_never_raises (s : String) :
    (b64decodePy (repadded s) = Except.error () → safeB64ToText s = "") ∧
    (∀ bs, b64decodePy (repadded s) = Except.ok bs →
      safeB64ToText s = String.mk (unescapeAux ((utf8d bs).length + 1) (utf8d bs))) := by
  constructor
  · intro h
    unfold safeB64ToText
    rw [h]
  · intro bs h
    unfold safeB64ToText
    rw [h]

/-- C8 witness: `"a"` repads to `"a==="`, whose single data character is an
invalid count, so the decode raises in Python and the helper returns `""`. -/
theorem c8_b64_never_raises_witness :
    b64decodePy (repadded "a") = Except.error () ∧ safeB64ToText "a" = "" :=
  ⟨rfl, (c8_b64_never_raises "a").1 rfl⟩

/-- Helper: a non-negative stop index bounds the Python slice length. -/
theorem pySliceLenLe (s : String) (k : Int) (hk : 0 ≤ k) :
    ((pySlice s k).length : Int) ≤ k := by
  unfold pySlice
  rw [if_pos hk]
  have h1 : (String.mk (s.data.take k.toNat)).length = (s.data.take k.toNat).length := rfl
  rw [h1]
  have h2 : (s.data.take k.toNat).length ≤ k.toNat := List.length_take_le _ _
  calc ((s.data.take k.toNat).length : Int) ≤ (k.toNat : Int) := by exact_mod_cast h2
    _ = k := Int.toNat_of_nonneg hk

/-- C9: on success the Document Publisher creates a document titled
`<Weekday> <YYYY-MM-DD>` for the current date, inserts the summary plus a
newline at index 1 (the document's start position), sets the
`anyone`/`writer` permission, and returns the canonical edit URL built
from the created document's id; each failing step instead returns the
plain `Error creating document: `-prefixed string. -/
theorem c9_doc_publish (b : DocBackend) (y : Int) (m d : Nat) (s : String) :
    (∀ docId, b.setup = Except.ok () → b.createDoc (docTitle y m d) = Except.ok docId →
      b.applyBatch docId 1 (s ++ "\n") = Except.ok () →
      b.setPermission docId "anyone" "writer" = Except.ok () →
      docRun b y m d s = (docUrl docId,
        [DocEffect.created (docTitle y m d), DocEffect.inserted docId 1 (s ++ "\n"),
         DocEffect.permissionSet docId "anyone" "writer"])) ∧
    (∀ e, b.setup = Except.error e →
      (docRun b y m d s).1 = "Error creating document: " ++ e) ∧
    (∀ e, b.setup = Except.ok () → b.createDoc (docTitle y m d) = Except.error e →
      (docRun b y m d s).1 = "Error creating document: " ++ e) ∧
    (∀ docId e, b.setup = Except.ok () → b.createDoc (docTitle y m d) = Except.ok docId →
      b.applyBatch docId 1 (s ++ "\n") = Except.error e →
      (docRun b y m d s).1 = "Error creating document: " ++ e) ∧
    (∀ docId e, b.setup = Except.ok () → b.createDoc (docTitle y m d) = Except.ok docId →
      b.applyBatch docId 1 (s ++ "\n") = Except.ok () →
      b.setPermission docId "anyone" "writer" = Except.error e →
      (docRun b y m d s).1 = "Error creating document: " ++ e) ∧
    docTitle 2025 10 12 = "Sunday 2025-10-12" := by
  refine ⟨?_, ?_, ?_, ?_, ?_, by decide⟩
  · intro docId hs hc ha hp
    simp [docRun, hs, hc, ha, hp]
  · intro e hs
    simp [docRun, hs]
  · intro e hs hc
    simp [docRun, hs, hc]
  · intro docId e hs hc ha
    simp [docRun, hs, hc, ha]
  · intro docId e hs hc ha hp
    simp [docRun, hs, hc, ha, hp]

/-- C9 witness: a fully successful publish of a concrete summary. -/
theorem c9_doc_publish_witness :
    docRun docAllOk 2025 10 12 "Q1 sync notes" = (docUrl "D1",
      [DocEffect.created (docTitle 2025 10 12),
       DocEffect.inserted "D1" 1 ("Q1 sync notes" ++ "\n"),
       DocEffect.permissionSet "D1" "anyone" "writer"]) :=
  (c9_doc_publish docAllOk 2025 10 12 "Q1 sync notes").1 "D1" rfl rfl rfl rfl

/-- C6, counterexample: `body_char_limit` is not validated, and for a
negative limit Python slicing keeps all but the trailing characters, so
the returned body ("ab", length 2) exceeds the limit −1. -/
theorem c6_body_counterexample :
    gmailRun gbOneMsg "q" 5 true (-1)
        = GmailResult.ok 1
            [{ id := "m1"
               subject := "S"
               sender := "No Sender"
               date := "No Date"
               snippet := "sn"
               body := some "ab" }]
      ∧ ¬((("ab" : String).length : Int) ≤ -1) :=
  ⟨rfl, by decide⟩

/-- C6 (amended): body extraction prefers the first truthy `text/plain`
part of a multi-part payload (so with both plain and HTML parts present the
plain content is returned); an HTML-only payload (direct body or sole HTML
part) is returned tag-stripped (script/style blocks removed, `<br>`/`</p>`
to newlines, remaining tags dropped); and the returned body length is
bounded by `body_char_limit` whenever that limit is non-negative (a
negative limit instead trims from the end, per Python slicing). -/
theorem c6_body_extraction (mime data : Option String) (parts : PayloadList) (d : String) :
    (payloadData (MimePayload.mk mime data parts) = none → findPlain parts = some d →
      extractPlainText (MimePayload.mk mime data parts) = safeB64ToText d) ∧
    (d ≠ "" → extractPlainText (MimePayload.mk (some "text/html") (some d) parts)
        = stripHtml (safeB64ToText d)) ∧
    (payloadData (MimePayload.mk mime data parts) = none → findPlain parts = none →
      findHtml parts = some d →
      extractPlainText (MimePayload.mk mime data parts) = stripHtml (safeB64ToText d)) ∧
    stripHtml "<p>hi<br><script>bad()</script>there</p>" = "hi\nthere" ∧
    (∀ (b : GmailBackend) (lim : Int) (mid : String) (r : MailRecord) (bd : String),
      0 ≤ lim → gmailRecord b true lim mid = Except.ok r → r.body = some bd →
      ((bd.length : Int) ≤ lim)) := by
  have hpd : payloadData (MimePayload.mk mime data parts)
      = (match data with | some s => if s == "" then none else some s | none => none) := rfl
  refine ⟨?_, ?_, ?_, by decide, ?_⟩
  · intro hd hp
    cases parts with
    | nil => cases hp
    | cons p ps =>
      rw [hpd] at hd
      simp only [extractPlainText, hd, hp]
  · intro hne
    have hbeq : (d == "") = false := beq_eq_false_iff_ne.mpr hne
    simp [extractPlainText, hbeq]
  · intro hd hp hh
    cases parts with
    | nil => cases hh
    | cons p ps =>
      rw [hpd] at hd
      simp only [extractPlainText, hd, hp, hh]
  · intro b lim mid r bd hlim h hb
    unfold gmailRecord at h
    cases hm : b.getMeta mid with
    | error e => simp only [hm, bind, Except.bind] at h; cases h
    | ok msg =>
      simp only [hm, bind, Except.bind, if_true] at h
      cases hf : b.getFull mid with
      | error e => simp only [hf] at h; cases h
      | ok full =>
        simp only [hf] at h
        cases h
        simp only at hb
        cases hb
        by_cases hbt : extractPlainText full == ""
        · rw [if_pos hbt]
          simpa using hlim
        · rw [if_neg hbt]
          exact pySliceLenLe _ _ hlim

/-- C6 witness: plain part preferred over the HTML part listed before it,
and a concrete in-bound truncation. -/
theorem c6_body_extraction_witness :
    extractPlainText (MimePayload.mk none none mixedParts) = safeB64ToText "YWJj" ∧
    (((("abc" : String)).length : Int) ≤ 800) :=
  ⟨(c6_body_extraction none none mixedParts "YWJj").1 rfl rfl,
   (c6_body_extraction none none mixedParts "YWJj").2.2.2.2 gbOneMsg 800 "m1"
     { id := "m1"
       subject := "S"
       sender := "No Sender"
       date := "No Date"
       snippet := "sn"
       body := some "abc" } "abc" (by decide) rfl rfl⟩

end Weekly
